import Mathlib

/-!
Shallow embedding of the recommendation microservice in `main.py`
(EyaNehdi/Recommendation_Course_LMS).

Strings are modelled as `List Char`.  Python's `str.lower()` is modelled on
its ASCII fragment (`pyLowerChar`); `str.strip()` strips whitespace from both
ends (`pyStrip`); pandas `Series.replace(a, b)` with scalar string arguments
replaces exact full cell values, which the preference-normalization pipeline
(`normalizePref`) reflects.  Mongo documents become Lean structures: a course
document's `typeRessource` is `Option (List Char)` (`none` models a
null/NaN-valued field, handled by `fillna('other')`); `price` (a Python
float nowhere used by the logic) is modelled as `Int`.

pandas failure modes that matter here: building a DataFrame from an empty
collection yields a frame with no columns, so the column assignments in
`load_data` raise `KeyError`, which the `except` turns into an HTTP 500
(`load_data` below).  HTTP errors are modelled by their status code (`Nat`);
detail strings are elided.  FastAPI's `HTTPException` subclasses `Exception`,
so the blanket `except Exception` in `get_recommendations` catches the
endpoint's own 400 and re-raises it as a 500 — the embedding keeps the inner
`try` body (`get_recommendations_try`) and the wrapping handler
(`get_recommendations`) separate to reflect that.
-/

namespace RecLMS

/-- Whitespace test used by `str.strip()` (ASCII fragment). -/
def isSpaceChar (c : Char) : Bool := c.isWhitespace

/-- `str.lower()` on one character (ASCII fragment): 'A'..'Z' shift by 32. -/
def pyLowerChar (c : Char) : Char :=
  if 65 ≤ c.toNat ∧ c.toNat ≤ 90 then Char.ofNat (c.toNat + 32) else c

/-- `str.lower()`. -/
def pyLower (s : List Char) : List Char := s.map pyLowerChar

/-- `str.lstrip()`: drop leading whitespace. -/
def lstrip (s : List Char) : List Char := s.dropWhile isSpaceChar

/-- `str.rstrip()`: drop trailing whitespace. -/
def rstrip (s : List Char) : List Char := (s.reverse.dropWhile isSpaceChar).reverse

/-- `str.strip()`: drop whitespace at both ends. -/
def pyStrip (s : List Char) : List Char := rstrip (lstrip s)

/-- String literal as a character list. -/
def strL (s : String) : List Char := s.toList

/-- Preference-side normalization, `main.py` lines 69–70:
`.str.lower().str.strip()` followed by
`.replace(' interactive exercice', 'interactive exercice')` (pandas
exact-value replacement). -/
def normalizePref (s : List Char) : List Char :=
  let t := pyStrip (pyLower s)
  if t = strL " interactive exercice" then strL "interactive exercice" else t

/-- Course-side normalization, `main.py` lines 64–65:
`.fillna('other')` then `.str.lower().str.strip()`. -/
def normalizeCourseType (s : Option (List Char)) : List Char :=
  pyStrip (pyLower (s.getD (strL "other")))

/- ### Basic lemmas about the normalizer -/

theorem dropWhile_self {p : Char → Bool} :
    ∀ l : List Char, (l.dropWhile p).dropWhile p = l.dropWhile p := by
  intro l
  induction l with
  | nil => rfl
  | cons a l ih =>
    by_cases h : p a = true
    · simpa [List.dropWhile_cons, h] using ih
    · simp [List.dropWhile_cons, h]

theorem dropWhile_head_false {p : Char → Bool} {l : List Char} {c : Char}
    {cs : List Char} (h : l.dropWhile p = c :: cs) : p c = false := by
  induction l with
  | nil => simp at h
  | cons a l ih =>
    by_cases ha : p a = true
    · exact ih (by simpa [List.dropWhile_cons, ha] using h)
    · rw [List.dropWhile_cons, if_neg (by simpa using ha)] at h
      cases h
      simpa using ha

theorem rstrip_eq_append (s : List Char) : ∃ t, s = rstrip s ++ t := by
  refine ⟨(s.reverse.takeWhile isSpaceChar).reverse, ?_⟩
  rw [rstrip]
  have h : s.reverse.takeWhile isSpaceChar ++ s.reverse.dropWhile isSpaceChar = s.reverse :=
    List.takeWhile_append_dropWhile isSpaceChar s.reverse
  calc s = s.reverse.reverse := by rw [List.reverse_reverse]
    _ = (s.reverse.takeWhile isSpaceChar ++ s.reverse.dropWhile isSpaceChar).reverse := by
        rw [h]
    _ = (s.reverse.dropWhile isSpaceChar).reverse ++ (s.reverse.takeWhile isSpaceChar).reverse := by
        rw [List.reverse_append]

theorem pyStrip_head_false {s : List Char} {c : Char} {cs : List Char}
    (h : pyStrip s = c :: cs) : isSpaceChar c = false := by
  obtain ⟨t, ht⟩ := rstrip_eq_append (lstrip s)
  rw [pyStrip] at h
  rw [h] at ht
  have ht' : s.dropWhile isSpaceChar = c :: (cs ++ t) := by simpa [lstrip] using ht
  exact dropWhile_head_false ht'

theorem lstrip_pyStrip (s : List Char) : lstrip (pyStrip s) = pyStrip s := by
  cases h : pyStrip s with
  | nil => rfl
  | cons c cs =>
    have hc := pyStrip_head_false h
    simp [lstrip, List.dropWhile_cons, hc]

theorem rstrip_idem (s : List Char) : rstrip (rstrip s) = rstrip s := by
  simp [rstrip, List.reverse_reverse, dropWhile_self]

theorem pyStrip_idem (s : List Char) : pyStrip (pyStrip s) = pyStrip s := by
  calc pyStrip (pyStrip s) = rstrip (lstrip (pyStrip s)) := rfl
    _ = rstrip (pyStrip s) := by rw [lstrip_pyStrip]
    _ = rstrip (rstrip (lstrip s)) := rfl
    _ = rstrip (lstrip s) := rstrip_idem _
    _ = pyStrip s := rfl

theorem mem_of_mem_pyStrip {a : Char} {s : List Char} (h : a ∈ pyStrip s) :
    a ∈ s := by
  rw [pyStrip, rstrip] at h
  rw [List.mem_reverse] at h
  have h1 : a ∈ (lstrip s).reverse := (List.dropWhile_sublist _).mem h
  rw [List.mem_reverse] at h1
  exact (List.dropWhile_sublist _).mem h1

theorem ofNat_toNat_lower {n : Nat} (h1 : 97 ≤ n) (h2 : n ≤ 122) :
    (Char.ofNat n).toNat = n := by
  have hv : n.isValidChar := Or.inl (by omega)
  simp [Char.ofNat, hv]
  rfl

theorem pyLowerChar_idem (c : Char) : pyLowerChar (pyLowerChar c) = pyLowerChar c := by
  by_cases h : 65 ≤ c.toNat ∧ c.toNat ≤ 90
  · have hto : (Char.ofNat (c.toNat + 32)).toNat = c.toNat + 32 :=
      ofNat_toNat_lower (by omega) (by omega)
    have h1 : pyLowerChar c = Char.ofNat (c.toNat + 32) := by
      rw [pyLowerChar, if_pos h]
    rw [h1, pyLowerChar, if_neg (by rw [hto]; omega)]
  · have h1 : pyLowerChar c = c := by rw [pyLowerChar, if_neg h]
    rw [h1, h1]

theorem map_fix {f : Char → Char} :
    ∀ l : List Char, (∀ a ∈ l, f a = a) → l.map f = l := by
  intro l
  induction l with
  | nil => intro _; rfl
  | cons a l ih =>
    intro h
    rw [List.map_cons, h a (List.mem_cons_self a l), ih fun b hb => h b (List.mem_cons_of_mem a hb)]

theorem pyLower_pyStrip_pyLower (s : List Char) :
    pyLower (pyStrip (pyLower s)) = pyStrip (pyLower s) := by
  refine map_fix _ fun a ha => ?_
  have h1 : a ∈ pyLower s := mem_of_mem_pyStrip ha
  obtain ⟨b, _, hb⟩ := List.mem_map.mp h1
  rw [← hb, pyLowerChar_idem]

theorem normalizePref_eq_strip_lower (s : List Char) :
    normalizePref s = pyStrip (pyLower s) := by
  rw [normalizePref]
  refine if_neg fun h => ?_
  have h' : pyStrip (pyLower s) = ' ' :: strL "interactive exercice" := by
    rw [h]
    rfl
  have hc : isSpaceChar ' ' = false := pyStrip_head_false h'
  simp [isSpaceChar] at hc

/- ### Data model (Mongo documents and processed frames) -/

/-- A document of the `courses` collection (fields used by the service).
`typeRessource = none` models a null-valued field. -/
structure CourseDoc where
  _id : List Char
  title : List Char
  typeRessource : Option (List Char)
  level : List Char
  price : Int
deriving DecidableEq, Repr

/-- A document of the `preferences` collection (fields used by the service). -/
structure PrefDoc where
  user : List Char
  typeRessource : List Char
deriving DecidableEq, Repr

/-- A row of the preprocessed `courses_df` after lines 63–66:
`typeRessource` filled and normalized, `_id` a string. -/
structure Course where
  _id : List Char
  title : List Char
  typeRessource : List Char
  level : List Char
  price : Int
deriving DecidableEq, Repr

/-- Lines 63–66 applied to one course document. -/
def preprocessCourse (c : CourseDoc) : Course :=
  { _id := c._id, title := c.title,
    typeRessource := normalizeCourseType c.typeRessource,
    level := c.level, price := c.price }

/-- Lines 68–71 applied to one preference document. -/
def preprocessPref (p : PrefDoc) : PrefDoc :=
  { user := p.user, typeRessource := normalizePref p.typeRessource }

/-- Shape of the endpoint's JSON body (`RecommendationResponse`). -/
structure RecommendationResponse where
  user_id : List Char
  preferences : List (List Char)
  recommendations : List Course
deriving DecidableEq, Repr

/-- `load_data` (lines 57–77).  When a collection holds no documents, the
resulting DataFrame has no columns and the column assignments raise
`KeyError`, caught and re-raised as `HTTPException(500)`; errors are
modelled by their status code. -/
def load_data (prefsColl : List PrefDoc) (coursesColl : List CourseDoc) :
    Except Nat (List PrefDoc × List Course) :=
  if coursesColl.isEmpty then Except.error 500
  else if prefsColl.isEmpty then Except.error 500
  else Except.ok (prefsColl.map preprocessPref, coursesColl.map preprocessCourse)

/-- `get_user_preferences` (lines 80–87): rows of `prefs_df` whose `user`
equals `user_id`, projected to `typeRessource`.  The body cannot fail in the
embedding, so the `except` branch returning `[]` is unreachable. -/
def get_user_preferences (user_id : List Char) (prefs_df : List PrefDoc) :
    List (List Char) :=
  (prefs_df.filter fun p => p.user = user_id).map fun p => p.typeRessource

/-- pandas `DataFrame.head(n)`: first `n` rows for `n ≥ 0`, all but the last
`-n` rows for `n < 0`. -/
def pdHead (n : Int) (l : List Course) : List Course :=
  if 0 ≤ n then l.take n.toNat else l.take (l.length - (-n).toNat)

/-- `recommend_courses` (lines 90–112). -/
def recommend_courses (user_id : List Char) (prefs_df : List PrefDoc)
    (courses_df : List Course) (top_n : Int) : List Course :=
  let user_prefs := get_user_preferences user_id prefs_df
  if user_prefs.isEmpty then []
  else
    let matched_courses := courses_df.filter fun c => user_prefs.contains c.typeRessource
    if matched_courses.isEmpty then []
    else pdHead top_n matched_courses

/-- The body of the `try` block of `get_recommendations` (lines 117–135):
validate `top_n`, load, recommend, assemble the response. -/
def get_recommendations_try (user_id : List Char) (top_n : Int)
    (prefsColl : List PrefDoc) (coursesColl : List CourseDoc) :
    Except Nat RecommendationResponse :=
  if top_n < 1 ∨ 50 < top_n then Except.error 400
  else
    match load_data prefsColl coursesColl with
    | Except.error e => Except.error e
    | Except.ok (prefs_df, courses_df) =>
        Except.ok
          { user_id := user_id,
            preferences := get_user_preferences user_id prefs_df,
            recommendations := recommend_courses user_id prefs_df courses_df top_n }

/-- `get_recommendations` (lines 115–138).  The `except Exception` clause at
line 136 catches every failure of the body — the `HTTPException(400)` of
line 119 included, since `HTTPException` subclasses `Exception` — and
re-raises it as `HTTPException(500)`. -/
def get_recommendations (user_id : List Char) (top_n : Int)
    (prefsColl : List PrefDoc) (coursesColl : List CourseDoc) :
    Except Nat RecommendationResponse :=
  match get_recommendations_try user_id top_n prefsColl coursesColl with
  | Except.ok r => Except.ok r
  | Except.error _ => Except.error 500

/- ### Service-level lemmas -/

theorem contains_iff {a : List Char} {l : List (List Char)} :
    l.contains a = true ↔ a ∈ l := by
  simp [List.contains, List.elem_iff]

/-- `preprocessPref` keeps the `user` field, so resolving a user's
preferences on the preprocessed frame filters the raw collection and
normalizes each matched label. -/
theorem get_user_preferences_map (uid : List Char) (prefsColl : List PrefDoc) :
    get_user_preferences uid (prefsColl.map preprocessPref) =
      (prefsColl.filter fun p => p.user = uid).map
        fun p => normalizePref p.typeRessource := by
  unfold get_user_preferences
  induction prefsColl with
  | nil => rfl
  | cons p l ih =>
    rw [List.map_cons, List.filter_cons, List.filter_cons]
    have hp : (decide ((preprocessPref p).user = uid)) = decide (p.user = uid) := rfl
    rw [hp]
    by_cases h : p.user = uid
    · rw [if_pos (decide_eq_true h), if_pos (decide_eq_true h), List.map_cons,
        List.map_cons, ih]
      rfl
    · have hd : decide (p.user = uid) = false := decide_eq_false h
      have hne : ¬(false = true) := by simp
      rw [hd, if_neg hne, if_neg hne, ih]

/-- For a non-negative bound, the matcher is exactly "filter by membership,
then take the first `top_n`". -/
theorem recommend_courses_eq (uid : List Char) (pdf : List PrefDoc)
    (cdf : List Course) (n : Int) (hn : 0 ≤ n) :
    recommend_courses uid pdf cdf n =
      (cdf.filter fun c =>
        (get_user_preferences uid pdf).contains c.typeRessource).take n.toNat := by
  unfold recommend_courses
  by_cases h : (get_user_preferences uid pdf).isEmpty = true
  · rw [if_pos h]
    rw [List.isEmpty_iff] at h
    rw [h]
    have : (cdf.filter fun c => List.contains [] c.typeRessource) = [] := by
      simp [List.contains]
    rw [this, List.take_nil]
  · rw [if_neg h]
    by_cases hm :
        (cdf.filter fun c =>
          (get_user_preferences uid pdf).contains c.typeRessource).isEmpty = true
    · rw [if_pos hm]
      rw [List.isEmpty_iff] at hm
      rw [hm, List.take_nil]
    · rw [if_neg hm, pdHead, if_pos hn]

/-- Success shape of the endpoint: `200 OK` holds exactly when the bound is
in range and both collections are non-empty, and then the body is the
assembled response over the preprocessed frames. -/
theorem get_recommendations_ok_iff (uid : List Char) (top_n : Int)
    (prefsColl : List PrefDoc) (coursesColl : List CourseDoc)
    (r : RecommendationResponse) :
    get_recommendations uid top_n prefsColl coursesColl = Except.ok r ↔
      (1 ≤ top_n ∧ top_n ≤ 50 ∧ coursesColl ≠ [] ∧ prefsColl ≠ [] ∧
       r = { user_id := uid,
             preferences := get_user_preferences uid (prefsColl.map preprocessPref),
             recommendations :=
               recommend_courses uid (prefsColl.map preprocessPref)
                 (coursesColl.map preprocessCourse) top_n }) := by
  constructor
  · intro h
    unfold get_recommendations at h
    cases htry : get_recommendations_try uid top_n prefsColl coursesColl with
    | error e => rw [htry] at h; exact absurd h (by simp)
    | ok r' =>
      rw [htry] at h
      have hrr : r' = r := Except.ok.inj h
      rw [hrr] at htry
      unfold get_recommendations_try at htry
      by_cases hv : top_n < 1 ∨ 50 < top_n
      · rw [if_pos hv] at htry; exact absurd htry (by simp)
      · rw [if_neg hv] at htry
        unfold load_data at htry
        by_cases hc : coursesColl.isEmpty = true
        · rw [if_pos hc] at htry; exact absurd htry (by simp)
        · rw [if_neg hc] at htry
          by_cases hp : prefsColl.isEmpty = true
          · rw [if_pos hp] at htry; exact absurd htry (by simp)
          · rw [if_neg hp] at htry
            refine ⟨by omega, by omega, ?_, ?_, (Except.ok.inj htry).symm⟩
            · intro hnil; exact hc (by rw [hnil]; rfl)
            · intro hnil; exact hp (by rw [hnil]; rfl)
  · rintro ⟨h1, h2, h3, h4, rfl⟩
    unfold get_recommendations get_recommendations_try load_data
    rw [if_neg (by omega)]
    rw [if_neg (by simpa [List.isEmpty_iff] using h3)]
    rw [if_neg (by simpa [List.isEmpty_iff] using h4)]

/- ### Sample store states used by witnesses and counterexamples -/

/-- A preference of user `u1` for videos. -/
def pVideo : PrefDoc := { user := strL "u1", typeRessource := strL "video" }

/-- A video course. -/
def cVideo : CourseDoc :=
  { _id := strL "c1", title := strL "Intro", typeRessource := some (strL "video"),
    level := strL "beginner", price := 3 }

/-- A quiz course. -/
def cQuiz : CourseDoc :=
  { _id := strL "c2", title := strL "Quiz", typeRessource := some (strL "quiz"),
    level := strL "beginner", price := 2 }

/-- A preference of `u1` with the mis-spaced variant label. -/
def pInteractive : PrefDoc :=
  { user := strL "u1", typeRessource := strL " interactive exercice" }

/-- A course with the canonical `interactive exercice` label. -/
def cInteractive : CourseDoc :=
  { _id := strL "c3", title := strL "Lab",
    typeRessource := some (strL "interactive exercice"),
    level := strL "beginner", price := 5 }

/-- The response for `u1` against `[pVideo]` / `[cVideo, cQuiz]`. -/
def rSample : RecommendationResponse :=
  { user_id := strL "u1", preferences := [strL "video"],
    recommendations := [preprocessCourse cVideo] }

/- ### Claims -/

/-- C1: the claim says an out-of-range `top_n` is surfaced as a 400
client-error response while `top_n = 1` and `top_n = 50` are processed
normally.  The code raises `HTTPException(400)` at line 119 as claimed, but
that exception is raised inside the `try`, so the blanket
`except Exception` at line 136 catches it and replaces it with an
`HTTPException(500)`: the surfaced status for `top_n = 0` or `51` is 500,
not the 400 both the claim and line 119 intend.  In-range bounds are
accepted and processed normally. -/
theorem top_n_validation_status_swallowed :
    get_recommendations_try (strL "u1") 0 [pVideo] [cVideo] = Except.error 400 ∧
    get_recommendations (strL "u1") 0 [pVideo] [cVideo] = Except.error 500 ∧
    get_recommendations_try (strL "u1") 51 [pVideo] [cVideo] = Except.error 400 ∧
    get_recommendations (strL "u1") 51 [pVideo] [cVideo] = Except.error 500 ∧
    get_recommendations (strL "u1") 1 [pVideo] [cVideo] = Except.ok rSample ∧
    get_recommendations (strL "u1") 50 [pVideo] [cVideo] = Except.ok rSample := by
  exact ⟨rfl, rfl, rfl, rfl, rfl, rfl⟩

/-- C2: every successful request returns at most `top_n` recommendations,
and each returned item's normalized resource type is a member of the
returned preference list. -/
theorem success_length_and_membership (uid : List Char) (top_n : Int)
    (prefsColl : List PrefDoc) (coursesColl : List CourseDoc)
    (r : RecommendationResponse)
    (h : get_recommendations uid top_n prefsColl coursesColl = Except.ok r) :
    (r.recommendations.length : Int) ≤ top_n ∧
      ∀ c ∈ r.recommendations, c.typeRessource ∈ r.preferences := by
  obtain ⟨h1, h2, h3, h4, hr⟩ := (get_recommendations_ok_iff _ _ _ _ _).mp h
  subst hr
  constructor
  · show ((recommend_courses _ _ _ _).length : Int) ≤ top_n
    rw [recommend_courses_eq _ _ _ _ (by omega)]
    calc ((List.take top_n.toNat _).length : Int)
        ≤ (top_n.toNat : Int) := by
          have := List.length_take top_n.toNat
            ((coursesColl.map preprocessCourse).filter fun c =>
              (get_user_preferences uid (prefsColl.map preprocessPref)).contains
                c.typeRessource)
          omega
      _ = top_n := Int.toNat_of_nonneg (by omega)
  · intro c hc
    have hc' : c ∈ recommend_courses uid (prefsColl.map preprocessPref)
        (coursesColl.map preprocessCourse) top_n := hc
    rw [recommend_courses_eq _ _ _ _ (by omega)] at hc'
    have h5 : c ∈ (coursesColl.map preprocessCourse).filter
        (fun d => (get_user_preferences uid (prefsColl.map preprocessPref)).contains
          d.typeRessource) := List.mem_of_mem_take hc'
    have h6 := List.of_mem_filter h5
    show c.typeRessource ∈ get_user_preferences uid (prefsColl.map preprocessPref)
    exact contains_iff.mp h6

/-- C2 witness: a concrete successful request. -/
theorem success_length_and_membership_witness :
    get_recommendations (strL "u1") 10 [pVideo] [cVideo, cQuiz] =
        Except.ok rSample ∧
      ((rSample.recommendations.length : Int) ≤ 10 ∧
        ∀ c ∈ rSample.recommendations, c.typeRessource ∈ rSample.preferences) :=
  ⟨rfl, success_length_and_membership (strL "u1") 10 [pVideo] [cVideo, cQuiz] rSample rfl⟩

/-- C3: a user with zero stored preferences gets an empty recommendation
list on every successful request, and the matcher returns `[]` for every
catalog whatsoever (the short-circuit before the catalog scan). -/
theorem zero_prefs_empty_recommendations (uid : List Char)
    (prefsColl : List PrefDoc)
    (h : prefsColl.filter (fun p => p.user = uid) = []) :
    (∀ (top_n : Int) (coursesColl : List CourseDoc) (r : RecommendationResponse),
        get_recommendations uid top_n prefsColl coursesColl = Except.ok r →
          r.recommendations = []) ∧
    (∀ (courses_df : List Course) (top_n : Int),
        recommend_courses uid (prefsColl.map preprocessPref) courses_df top_n = []) := by
  have hg : get_user_preferences uid (prefsColl.map preprocessPref) = [] := by
    rw [get_user_preferences_map, h]
    rfl
  have hrc : ∀ (courses_df : List Course) (top_n : Int),
      recommend_courses uid (prefsColl.map preprocessPref) courses_df top_n = [] := by
    intro cdf top_n
    unfold recommend_courses
    simp [hg]
  refine ⟨?_, hrc⟩
  intro top_n coursesColl r hok
  obtain ⟨_, _, _, _, hr⟩ := (get_recommendations_ok_iff _ _ _ _ _).mp hok
  subst hr
  exact hrc _ _

/-- C3 witness: user `ghost` has no stored preferences. -/
theorem zero_prefs_empty_recommendations_witness :
    ([pVideo].filter (fun p => p.user = strL "ghost") = []) ∧
    recommend_courses (strL "ghost") ([pVideo].map preprocessPref)
      [preprocessCourse cVideo] 10 = [] :=
  ⟨by decide,
    (zero_prefs_empty_recommendations (strL "ghost") [pVideo] (by decide)).2
      [preprocessCourse cVideo] 10⟩

/-- C4: the matcher is exactly "filter by preference membership in catalog
order, then take the first `top_n`", and its output is a sublist of the
catalog — so any two matches keep their relative catalog order, with no
re-ranking or secondary sort key, and truncation keeps the first `top_n`
matches. -/
theorem matcher_preserves_catalog_order (uid : List Char) (pdf : List PrefDoc)
    (cdf : List Course) (top_n : Int) (h : 0 ≤ top_n) :
    recommend_courses uid pdf cdf top_n =
      (cdf.filter fun c =>
        (get_user_preferences uid pdf).contains c.typeRessource).take top_n.toNat ∧
    (recommend_courses uid pdf cdf top_n).Sublist cdf := by
  refine ⟨recommend_courses_eq uid pdf cdf top_n h, ?_⟩
  rw [recommend_courses_eq uid pdf cdf top_n h]
  exact (List.take_sublist _ _).trans (List.filter_sublist _)

/-- C4 witness: three-course catalog, bound 2. -/
theorem matcher_preserves_catalog_order_witness :
    (0 ≤ (2 : Int)) ∧
    (recommend_courses (strL "u1") [pVideo]
        [preprocessCourse cVideo, preprocessCourse cQuiz, preprocessCourse cVideo] 2 =
      (([preprocessCourse cVideo, preprocessCourse cQuiz,
          preprocessCourse cVideo].filter fun c =>
        (get_user_preferences (strL "u1") [pVideo]).contains
          c.typeRessource).take (2 : Int).toNat) ∧
    (recommend_courses (strL "u1") [pVideo]
        [preprocessCourse cVideo, preprocessCourse cQuiz, preprocessCourse cVideo] 2).Sublist
      [preprocessCourse cVideo, preprocessCourse cQuiz, preprocessCourse cVideo]) :=
  ⟨by decide,
    matcher_preserves_catalog_order (strL "u1") [pVideo]
      [preprocessCourse cVideo, preprocessCourse cQuiz, preprocessCourse cVideo] 2
      (by decide)⟩

/-- C5: the preference normalizer (trim, lowercase, variant replacement) is
a total function and is idempotent. -/
theorem normalize_idempotent (s : List Char) :
    normalizePref (normalizePref s) = normalizePref s := by
  rw [normalizePref_eq_strip_lower, normalizePref_eq_strip_lower,
    pyLower_pyStrip_pyLower, pyStrip_idem]

/-- C6: a catalog item with a missing resource type is given the literal
category `other` before normalization and then matches a preference that
normalizes to `other`. -/
theorem missing_type_treated_as_other (c : CourseDoc) (p : PrefDoc)
    (uid : List Char) (top_n : Int) (hc : c.typeRessource = none)
    (hp : normalizePref p.typeRessource = strL "other") (hu : p.user = uid)
    (hn : 1 ≤ top_n) :
    (preprocessCourse c).typeRessource = strL "other" ∧
    recommend_courses uid [preprocessPref p] [preprocessCourse c] top_n =
      [preprocessCourse c] := by
  have h1 : (preprocessCourse c).typeRessource = strL "other" := by
    show normalizeCourseType c.typeRessource = strL "other"
    rw [hc]
    decide
  refine ⟨h1, ?_⟩
  rw [recommend_courses_eq uid _ _ top_n (by omega)]
  have hpu : (preprocessPref p).user = uid := hu
  have hpt : (preprocessPref p).typeRessource = strL "other" := hp
  have hg : get_user_preferences uid [preprocessPref p] = [strL "other"] := by
    simp [get_user_preferences, List.filter_cons, hpu, hpt]
  rw [hg]
  have hmem : ([strL "other"].contains (preprocessCourse c).typeRessource) = true := by
    rw [h1]
    decide
  rw [List.filter_cons, if_pos hmem, List.filter_nil]
  exact List.take_of_length_le (by simp; omega)

/-- C6 witness: a null-typed course matched through preference `" Other "`. -/
theorem missing_type_treated_as_other_witness :
    ((⟨strL "c9", strL "Untyped", none, strL "beginner", 1⟩ : CourseDoc).typeRessource
        = none) ∧
    (normalizePref (strL " Other ") = strL "other") ∧
    ((strL "u1" : List Char) = strL "u1") ∧
    (1 ≤ (10 : Int)) ∧
    ((preprocessCourse ⟨strL "c9", strL "Untyped", none, strL "beginner", 1⟩).typeRessource
        = strL "other" ∧
      recommend_courses (strL "u1")
        [preprocessPref ⟨strL "u1", strL " Other "⟩]
        [preprocessCourse ⟨strL "c9", strL "Untyped", none, strL "beginner", 1⟩] 10 =
        [preprocessCourse ⟨strL "c9", strL "Untyped", none, strL "beginner", 1⟩]) :=
  ⟨rfl, by decide, rfl, by decide,
    missing_type_treated_as_other
      ⟨strL "c9", strL "Untyped", none, strL "beginner", 1⟩
      ⟨strL "u1", strL " Other "⟩ (strL "u1") 10 rfl (by decide) rfl (by decide)⟩

/-- C7: a syntactically valid but unknown user id is not an error: on a
loadable store (non-empty collections) with an in-range bound, the endpoint
answers `200 OK` with empty preferences and empty recommendations. -/
theorem unknown_user_ok_empty (uid : List Char) (top_n : Int)
    (prefsColl : List PrefDoc) (coursesColl : List CourseDoc)
    (h1 : 1 ≤ top_n) (h2 : top_n ≤ 50) (h3 : coursesColl ≠ [])
    (h4 : prefsColl ≠ [])
    (h5 : prefsColl.filter (fun p => p.user = uid) = []) :
    get_recommendations uid top_n prefsColl coursesColl =
      Except.ok { user_id := uid, preferences := [], recommendations := [] } := by
  rw [get_recommendations_ok_iff]
  have hg : get_user_preferences uid (prefsColl.map preprocessPref) = [] := by
    rw [get_user_preferences_map, h5]
    rfl
  have hrc : recommend_courses uid (prefsColl.map preprocessPref)
      (coursesColl.map preprocessCourse) top_n = [] := by
    unfold recommend_courses
    simp [hg]
  refine ⟨h1, h2, h3, h4, ?_⟩
  rw [hg, hrc]

/-- C7 witness: unknown user `ghost` on a one-preference, one-course store. -/
theorem unknown_user_ok_empty_witness :
    (1 ≤ (10 : Int)) ∧ ((10 : Int) ≤ 50) ∧ ([cVideo] ≠ ([] : List CourseDoc)) ∧
    ([pVideo] ≠ ([] : List PrefDoc)) ∧
    ([pVideo].filter (fun p => p.user = strL "ghost") = []) ∧
    get_recommendations (strL "ghost") 10 [pVideo] [cVideo] =
      Except.ok { user_id := strL "ghost", preferences := [], recommendations := [] } :=
  ⟨by decide, by decide, by decide, by decide, by decide,
    unknown_user_ok_empty (strL "ghost") 10 [pVideo] [cVideo]
      (by decide) (by decide) (by decide) (by decide) (by decide)⟩

/-- C8: the stored preference `" interactive exercice"` (leading space)
normalizes to the same label as the catalog value `interactive exercice`,
and the item is matched. -/
theorem misspaced_variant_matches :
    normalizePref (strL " interactive exercice") =
      normalizeCourseType (some (strL "interactive exercice")) ∧
    recommend_courses (strL "u1") [preprocessPref pInteractive]
      [preprocessCourse cInteractive] 10 = [preprocessCourse cInteractive] := by
  constructor <;> decide

/-- C9 counterexample: the claim includes the store state where the
preferences (or courses) collection holds no documents; there the empty
DataFrame has no `typeRessource` column, `load_data` raises, and the request
fails with status 500 instead of completing with empty sequences. -/
theorem empty_collection_fails_500 :
    get_recommendations (strL "u1") 10 [] [cVideo] = Except.error 500 ∧
    get_recommendations (strL "u1") 10 [pVideo] [] = Except.error 500 := by
  exact ⟨rfl, rfl⟩

/-- C9 (amended): on a store whose preferences and courses collections are
each non-empty, zero user preferences or zero matching items is not a
failure: the request completes with `200 OK` and an empty recommendation
list. -/
theorem empty_result_ok_on_nonempty_store (uid : List Char) (top_n : Int)
    (prefsColl : List PrefDoc) (coursesColl : List CourseDoc)
    (h1 : 1 ≤ top_n) (h2 : top_n ≤ 50) (h3 : coursesColl ≠ [])
    (h4 : prefsColl ≠ [])
    (h5 : get_user_preferences uid (prefsColl.map preprocessPref) = [] ∨
          (coursesColl.map preprocessCourse).filter
            (fun c => (get_user_preferences uid (prefsColl.map preprocessPref)).contains
              c.typeRessource) = []) :
    get_recommendations uid top_n prefsColl coursesColl =
      Except.ok { user_id := uid,
                  preferences := get_user_preferences uid (prefsColl.map preprocessPref),
                  recommendations := [] } := by
  rw [get_recommendations_ok_iff]
  refine ⟨h1, h2, h3, h4, ?_⟩
  have hrc : recommend_courses uid (prefsColl.map preprocessPref)
      (coursesColl.map preprocessCourse) top_n = [] := by
    rw [recommend_courses_eq _ _ _ _ (by omega)]
    rcases h5 with h | h
    · simp [h, List.contains]
    · rw [h, List.take_nil]
  rw [hrc]

/-- C9 (amended) witness: `u1` prefers videos but the catalog only holds a
quiz — an empty, successful result. -/
theorem empty_result_ok_on_nonempty_store_witness :
    (1 ≤ (10 : Int)) ∧ ((10 : Int) ≤ 50) ∧ ([cQuiz] ≠ ([] : List CourseDoc)) ∧
    ([pVideo] ≠ ([] : List PrefDoc)) ∧
    (get_user_preferences (strL "u1") ([pVideo].map preprocessPref) = [] ∨
      ([cQuiz].map preprocessCourse).filter
        (fun c => (get_user_preferences (strL "u1") ([pVideo].map preprocessPref)).contains
          c.typeRessource) = []) ∧
    get_recommendations (strL "u1") 10 [pVideo] [cQuiz] =
      Except.ok { user_id := strL "u1",
                  preferences := get_user_preferences (strL "u1") ([pVideo].map preprocessPref),
                  recommendations := [] } :=
  ⟨by decide, by decide, by decide, by decide, by decide,
    empty_result_ok_on_nonempty_store (strL "u1") 10 [pVideo] [cQuiz]
      (by decide) (by decide) (by decide) (by decide) (by decide)⟩

/-- C10: the preference pipeline (lowercase, trim, then pandas exact-value
replacement of `" interactive exercice"`) equals lowercase-then-trim alone:
trimming runs before the replacement, so no cell can still carry the
leading-space variant and the replacement never fires. -/
theorem variant_replacement_dead (s : List Char) :
    normalizePref s = pyStrip (pyLower s) :=
  normalizePref_eq_strip_lower s

end RecLMS
